import Mathlib

/-!
Shallow embedding of the lap-analysis modules of the 2026 F1 testing
repository (`distributions.py`, `long_runs.py`, `reliability.py`).

A lap table is a list of lap records.  Nullable floating-point columns
(`LapTimeSeconds`, `Compound`) are embedded as `Option` values, with `none`
playing the role of pandas `NaN`/missing; arithmetic on lap times is exact
rational arithmetic.  The square root used inside the sample standard
deviation is irrational in general, so the development is parameterised by
the function `sqrtFn` computing it; no claim below depends on its values,
only on where the standard deviation is defined (`some`) or undefined
(`none`, the embedding of pandas `NaN` for groups of fewer than two laps).

pandas `groupby` sorts its group keys ascending; `sort_values` sorts rows by
a column, placing undefined (`NaN`) keys last.  Both are embedded with
`List.mergeSort` over the corresponding boolean relations.
-/

/-- One row of the lap table: the input schema
{Team, Driver, Day, Stint, LapNumber, Compound, LapTimeSeconds}. -/
structure Lap where
  Team : String
  Driver : String
  Day : Int
  Stint : Int
  LapNumber : Int
  Compound : Option String
  LapTimeSeconds : Option ℚ
deriving DecidableEq

/-- `series > 0` on a nullable value: `NaN > 0` is `False` in pandas. -/
def optPos : Option ℚ → Bool
  | some t => decide (0 < t)
  | none => false

/-- `laps.dropna(subset=["LapTimeSeconds"])`. -/
def dropnaLapTime (laps : List Lap) : List Lap :=
  laps.filter (fun l => l.LapTimeSeconds.isSome)

/-- `valid = laps.dropna(subset=["LapTimeSeconds"]); valid = valid[valid["LapTimeSeconds"] > 0]`
(the filter at the top of `identify_long_runs`). -/
def validLaps (laps : List Lap) : List Lap :=
  (dropnaLapTime laps).filter (fun l => optPos l.LapTimeSeconds)

/-- Mean of a list of rationals, as the total-division value `sum / length`
(only ever applied to nonempty lists in the development). -/
def meanD (xs : List ℚ) : ℚ :=
  xs.sum / (xs.length : ℚ)

/-- pandas `mean` with `skipna` already applied: `NaN` (`none`) on an empty
list of observations. -/
def meanO (xs : List ℚ) : Option ℚ :=
  if xs.isEmpty then none else some (meanD xs)

/-- pandas `min` of a list of observations: `NaN` (`none`) when empty. -/
def foldMin : List ℚ → Option ℚ
  | [] => none
  | x :: xs => some (xs.foldl min x)

/-- pandas `max` of a list of observations: `NaN` (`none`) when empty. -/
def foldMax : List ℚ → Option ℚ
  | [] => none
  | x :: xs => some (xs.foldl max x)

/-- Ascending boolean order on rationals (for pandas sorting of values). -/
def ratLE (a b : ℚ) : Bool := decide (a ≤ b)

/-- pandas `median`: sort the non-null observations; middle element when the
count is odd, average of the two middle elements when even, `NaN` (`none`)
when there are no observations. -/
def medianQ (xs : List ℚ) : Option ℚ :=
  let s := xs.mergeSort ratLE
  let n := s.length
  if n = 0 then none
  else if n % 2 = 1 then s[n / 2]?
  else
    match s[n / 2 - 1]?, s[n / 2]? with
    | some a, some b => some ((a + b) / 2)
    | _, _ => none

/-- pandas sample standard deviation (`std`, `ddof=1`): undefined (`NaN`,
here `none`) for fewer than two observations, otherwise the square root of
the sample variance.  `sqrtFn` is the square-root function the development
is parameterised by. -/
def stdO (sqrtFn : ℚ → ℚ) (xs : List ℚ) : Option ℚ :=
  if xs.length < 2 then none
  else
    some (sqrtFn ((xs.map (fun x => (x - meanD xs) * (x - meanD xs))).sum
      / ((xs.length : ℚ) - 1)))

/-- `NaN`-propagating subtraction on nullable values. -/
def subO : Option ℚ → Option ℚ → Option ℚ
  | some a, some b => some (a - b)
  | _, _ => none

/-- Sort key order used by `sort_values` on a nullable column: ascending on
defined values, `NaN` (`none`) placed last (`na_position='last'`). -/
def optLE : Option ℚ → Option ℚ → Bool
  | some a, some b => decide (a ≤ b)
  | some _, none => true
  | none, none => true
  | none, some _ => false

/-- Ascending boolean order on strings (pandas group-key order). -/
def strLE (a b : String) : Bool := decide (a ≤ b)

/-- Ascending boolean order on integers (pandas group-key order). -/
def intLE (a b : Int) : Bool := decide (a ≤ b)

/-! ## distributions.py -/

/-- One output row of `compute_team_stats`: the aggregates
`{min, median, mean, std, count}` of `LapTimeSeconds` plus `headline_gap`.
Each statistic skips null observations (pandas `skipna`), so it is `none`
exactly when the team has no non-null lap time. -/
structure TeamStats where
  Team : String
  min : Option ℚ
  median : Option ℚ
  mean : Option ℚ
  std : Option ℚ
  count : Nat
  headline_gap : Option ℚ
deriving DecidableEq

/-- The non-null lap times of one team, in row order (what each pandas
aggregate of `groupby("Team")["LapTimeSeconds"]` actually consumes). -/
def nonNullTimes (laps : List Lap) (t : String) : List ℚ :=
  (laps.filter (fun l => decide (l.Team = t))).filterMap (·.LapTimeSeconds)

/-- The distinct teams of a lap table in ascending order (pandas
`groupby("Team")` key order). -/
def sortedTeams (laps : List Lap) : List String :=
  ((laps.map (·.Team)).dedup).mergeSort strLE

/-- The aggregation body of `compute_team_stats` for one team. -/
def teamStatsRow (sqrtFn : ℚ → ℚ) (laps : List Lap) (t : String) : TeamStats :=
  { Team := t, min := foldMin (nonNullTimes laps t),
    median := medianQ (nonNullTimes laps t),
    mean := meanO (nonNullTimes laps t),
    std := stdO sqrtFn (nonNullTimes laps t),
    count := (nonNullTimes laps t).length,
    headline_gap := subO (medianQ (nonNullTimes laps t)) (foldMin (nonNullTimes laps t)) }

/-- `compute_team_stats` (distributions.py): group by `Team`, aggregate
`LapTimeSeconds` with `{min, median, mean, std, count}`, add
`headline_gap = median - min`, and sort ascending by `median`
(undefined medians last). -/
def compute_team_stats (sqrtFn : ℚ → ℚ) (laps : List Lap) : List TeamStats :=
  ((sortedTeams laps).map (teamStatsRow sqrtFn laps)).mergeSort
    (fun a b => optLE a.median b.median)

/-- Order of the axes of `plot_compound_distributions`. -/
def compound_order : List String := ["SOFT", "MEDIUM", "HARD"]

/-- The data behind the figure of `plot_compound_distributions`: the list of
compounds, one subplot axis each. -/
structure CompoundDistFig where
  compounds : List String
deriving DecidableEq

/-- `plot_compound_distributions` (distributions.py), reduced to the data it
draws: the compound list (preferred order filtered to those present, falling
back to all distinct non-null compounds) and the early `return None` when no
compound is present. -/
def plot_compound_distributions (laps : List Lap) : Option CompoundDistFig :=
  let uniq := (laps.map (·.Compound)).dedup
  let cs0 := compound_order.filter (fun c => decide (some c ∈ uniq))
  let compounds := if cs0.isEmpty then (laps.filterMap (·.Compound)).dedup else cs0
  if compounds.isEmpty then none else some ⟨compounds⟩

/-! ## reliability.py -/

/-- One output row of `compute_total_laps`. -/
structure TotalRow where
  Team : String
  TotalLaps : Nat
deriving DecidableEq

/-- The `size()` row of `compute_total_laps` for one team. -/
def totalRow (laps : List Lap) (t : String) : TotalRow :=
  { Team := t, TotalLaps := (laps.filter (fun l => decide (l.Team = t))).length }

/-- `compute_total_laps` (reliability.py): `groupby("Team").size()` — every
row of the table is counted, with no `LapTimeSeconds` filtering — then sort
descending by `TotalLaps`. -/
def compute_total_laps (laps : List Lap) : List TotalRow :=
  ((sortedTeams laps).map (totalRow laps)).mergeSort
    (fun a b => decide (b.TotalLaps ≤ a.TotalLaps))

/-- The distinct `Day` values of a lap table in ascending order (the pivot's
column index). -/
def pivotDays (laps : List Lap) : List Int :=
  ((laps.map (·.Day)).dedup).mergeSort intLE

/-- The distinct `Team` values of a lap table in ascending order (the
pivot's row index). -/
def pivotTeams (laps : List Lap) : List String :=
  ((laps.map (·.Team)).dedup).mergeSort strLE

/-- Ascending order on (Team, Day) pairs. -/
def teamDayLE (a b : String × Int) : Bool :=
  if a.1 = b.1 then intLE a.2 b.2 else strLE a.1 b.1

/-- The distinct (Team, Day) pairs present in the table, ascending: the
index of `groupby(["Team", "Day"]).size()`. -/
def team_day_pairs (laps : List Lap) : List (String × Int) :=
  ((laps.map (fun l => (l.Team, l.Day))).dedup).mergeSort teamDayLE

/-- `groupby(["Team", "Day"]).size()`: one entry per present (Team, Day)
pair, carrying the number of rows of that pair. -/
def team_day_sizes (laps : List Lap) : List ((String × Int) × Nat) :=
  (team_day_pairs laps).map (fun k =>
    (k, (laps.filter (fun l => decide ((l.Team, l.Day) = k))).length))

/-- One cell of the pivot of `compute_laps_per_team_day`: the group size
when the (team, day) pair is present, and the `fillna(0)` value `0` when it
is absent.  `astype(int)` is the `Nat` codomain. -/
def pivotCell (laps : List Lap) (t : String) (d : Int) : Nat :=
  (((team_day_sizes laps).lookup (t, d)).getD 0)

/-- The pivot returned by `compute_laps_per_team_day`: row index, column
index, and the full rectangular grid of cells. -/
structure LapsPivot where
  index : List String
  cols : List Int
  cells : List (List Nat)
deriving DecidableEq

/-- `compute_laps_per_team_day` (reliability.py): `groupby(["Team", "Day"])
.size()`, pivoted to a Team × Day grid, `fillna(0)`, `astype(int)`. -/
def compute_laps_per_team_day (laps : List Lap) : LapsPivot :=
  { index := pivotTeams laps, cols := pivotDays laps,
    cells := (pivotTeams laps).map (fun t =>
      (pivotDays laps).map (fun d => pivotCell laps t d)) }

/-! ## long_runs.py -/

/-- The grouping key (Team, Driver, Day, Stint) of a lap row. -/
def stintKey (l : Lap) : String × String × Int × Int :=
  (l.Team, l.Driver, l.Day, l.Stint)

/-- Ascending lexicographic order on stint keys (pandas group-key order). -/
def keyLE (a b : String × String × Int × Int) : Bool :=
  if a.1 = b.1 then
    if a.2.1 = b.2.1 then
      if a.2.2.1 = b.2.2.1 then intLE a.2.2.2 b.2.2.2
      else intLE a.2.2.1 b.2.2.1
    else strLE a.2.1 b.2.1
  else strLE a.1 b.1

/-- The distinct stint keys of a table, ascending. -/
def stintKeys (laps : List Lap) : List (String × String × Int × Int) :=
  ((laps.map stintKey).dedup).mergeSort keyLE

/-- The rows of one stint group, in row order. -/
def stintGroup (laps : List Lap) (k : String × String × Int × Int) : List Lap :=
  laps.filter (fun l => decide (stintKey l = k))

/-- One row of the `stints` aggregation inside `identify_long_runs`, before
the threshold filter and the derived `CoV`/`Range` columns: group key plus
`StintLaps` (count), `Compound` (pandas groupby `first`, the first non-null
value), and mean/std/min/max of `LapTimeSeconds`.  The groups this is
applied to are nonempty and hold only non-null positive lap times, so
`MeanTime`/`MinTime`/`MaxTime` are total (the `getD 0` defaults are never
reached) while `StdTime` is `none` exactly for single-lap groups. -/
structure StintRow where
  Team : String
  Driver : String
  Day : Int
  Stint : Int
  StintLaps : Nat
  Compound : Option String
  MeanTime : ℚ
  StdTime : Option ℚ
  MinTime : ℚ
  MaxTime : ℚ
deriving DecidableEq

/-- The aggregation body of `identify_long_runs` for one group key. -/
def makeStintRow (sqrtFn : ℚ → ℚ) (laps : List Lap)
    (k : String × String × Int × Int) : StintRow :=
  let g := stintGroup laps k
  let v := g.filterMap (·.LapTimeSeconds)
  { Team := k.1, Driver := k.2.1, Day := k.2.2.1, Stint := k.2.2.2,
    StintLaps := v.length,
    Compound := (g.filterMap (·.Compound)).head?,
    MeanTime := meanD v,
    StdTime := stdO sqrtFn v,
    MinTime := (foldMin v).getD 0,
    MaxTime := (foldMax v).getD 0 }

/-- One row of the table returned by `identify_long_runs`: a stint row that
passed the threshold, with the derived `CoV = StdTime / MeanTime` (`NaN`
propagating through the division) and `Range = MaxTime - MinTime`. -/
structure LongRun extends StintRow where
  CoV : Option ℚ
  Range : ℚ
deriving DecidableEq

/-- The grouping key of a long-run row. -/
def rowKey (r : LongRun) : String × String × Int × Int :=
  (r.Team, r.Driver, r.Day, r.Stint)

/-- Python `min_laps or LONG_RUN_MIN_LAPS`: the override is used only when
truthy, so `None` and `0` both fall back to the configured default. -/
def orDefault (min_laps : Option Nat) (dflt : Nat) : Nat :=
  match min_laps with
  | some n => if n = 0 then dflt else n
  | none => dflt

/-- `long_runs["CoV"] = StdTime / MeanTime; long_runs["Range"] = MaxTime -
MinTime`: the derived columns added to a retained stint row.  The division
propagates an undefined (`NaN`) standard deviation into `CoV`. -/
def longRunOfStint (s : StintRow) : LongRun :=
  { toStintRow := s,
    CoV := s.StdTime.map (fun sd => sd / s.MeanTime),
    Range := s.MaxTime - s.MinTime }

/-- `identify_long_runs` (long_runs.py).  `LONG_RUN_MIN_LAPS` — the
module-level threshold constant imported from the configuration module,
which is not part of the analysed sources — is passed as a parameter.
Filter to non-null, positive lap times; group by (Team, Driver, Day, Stint);
aggregate; keep the groups with `StintLaps >= threshold`; add `CoV` and
`Range`. -/
def identify_long_runs (LONG_RUN_MIN_LAPS : Nat) (sqrtFn : ℚ → ℚ)
    (laps : List Lap) (min_laps : Option Nat) : List LongRun :=
  ((((stintKeys (validLaps laps)).map (makeStintRow sqrtFn (validLaps laps))).filter
    (fun s => decide (orDefault min_laps LONG_RUN_MIN_LAPS ≤ s.StintLaps))).map
    longRunOfStint)

/-- One row of the table built by `get_long_run_laps`: a selected lap with
its 1-based position in the stint and its delta from the stint mean. -/
structure RunLapRow where
  lap : Lap
  StintLapNumber : Nat
  DeltaFromMean : ℚ
deriving DecidableEq

/-- The row mask of `get_long_run_laps` for one long-run row: same
(Team, Driver, Day, Stint), non-null and positive lap time. -/
def runSelect (laps : List Lap) (r : LongRun) : List Lap :=
  laps.filter (fun l =>
    decide (l.Team = r.Team) && decide (l.Driver = r.Driver)
    && decide (l.Day = r.Day) && decide (l.Stint = r.Stint)
    && l.LapTimeSeconds.isSome && optPos l.LapTimeSeconds)

/-- Ascending order by `LapNumber` (`sort_values("LapNumber")`). -/
def lapNumLE (a b : Lap) : Bool := decide (a.LapNumber ≤ b.LapNumber)

/-- `StintLapNumber = range(1, len + 1)` and
`DeltaFromMean = LapTimeSeconds - mean`: number the sorted selection from
`i` upward, centering each lap time on the stint mean `m`.  The selected
laps all carry non-null times, so the `getD 0` default is never reached. -/
def numberFrom (i : Nat) (m : ℚ) : List Lap → List RunLapRow
  | [] => []
  | l :: ls =>
    { lap := l, StintLapNumber := i,
      DeltaFromMean := l.LapTimeSeconds.getD 0 - m } :: numberFrom (i + 1) m ls

/-- The block of rows `get_long_run_laps` builds for one long-run row:
select the stint's valid laps, sort by `LapNumber`, number them from 1 and
center them on the mean over the same selection. -/
def runLapsFor (laps : List Lap) (r : LongRun) : List RunLapRow :=
  let sel := (runSelect laps r).mergeSort lapNumLE
  numberFrom 1 (meanD (sel.map (fun l => l.LapTimeSeconds.getD 0))) sel

/-- The value returned by `get_long_run_laps`: either the bare
`pd.DataFrame()` (no rows and no columns, returned when the long-run table
contributed no blocks) or the concatenation of the per-stint blocks. -/
inductive RunLapsFrame where
  | emptyNoCols : RunLapsFrame
  | table : List RunLapRow → RunLapsFrame
deriving DecidableEq

/-- The rows of a `get_long_run_laps` result (what `.empty` inspects). -/
def frameRows : RunLapsFrame → List RunLapRow
  | .emptyNoCols => []
  | .table rs => rs

/-- `get_long_run_laps` (long_runs.py): one block per long-run row,
concatenated; the schema-less empty frame when the long-run table has no
rows. -/
def get_long_run_laps (laps : List Lap) (long_runs : List LongRun) : RunLapsFrame :=
  if long_runs.isEmpty then .emptyNoCols
  else .table ((long_runs.map (runLapsFor laps)).flatten)

/-- One output row of `compute_consistency_by_team`: per-team `CoV`
aggregates (pandas `mean`/`median`/`count` skip null `CoV` values) and the
mean `Range`. -/
structure ConsistencyRow where
  Team : String
  MeanCoV : Option ℚ
  MedianCoV : Option ℚ
  NumLongRuns : Nat
  MeanRange : Option ℚ
deriving DecidableEq

/-- The aggregation body of `compute_consistency_by_team` for one team:
the pandas `mean`/`median`/`count` aggregates of `CoV` skip undefined
(`NaN`) values. -/
def consistencyRow (long_runs : List LongRun) (t : String) : ConsistencyRow :=
  { Team := t,
    MeanCoV := meanO ((long_runs.filter (fun r => decide (r.Team = t))).filterMap (·.CoV)),
    MedianCoV := medianQ ((long_runs.filter (fun r => decide (r.Team = t))).filterMap (·.CoV)),
    NumLongRuns := ((long_runs.filter (fun r => decide (r.Team = t))).filterMap (·.CoV)).length,
    MeanRange := meanO ((long_runs.filter (fun r => decide (r.Team = t))).map (·.Range)) }

/-- `compute_consistency_by_team` (long_runs.py): group the long-run table
by `Team`, aggregate `CoV → {mean, median, count}` and `Range → mean`, sort
ascending by `MedianCoV` (undefined medians last). -/
def compute_consistency_by_team (long_runs : List LongRun) : List ConsistencyRow :=
  ((((long_runs.map (·.Team)).dedup).mergeSort strLE).map (consistencyRow long_runs)).mergeSort
    (fun a b => optLE a.MedianCoV b.MedianCoV)

/-- The data behind the figure of `plot_long_run_traces`. -/
structure TraceFig where
  rows : List RunLapRow
deriving DecidableEq

/-- `plot_long_run_traces` (long_runs.py), reduced to the data it draws:
`None` when the long-run lap selection is empty, otherwise a figure built
from the selected rows. -/
def plot_long_run_traces (laps : List Lap) (long_runs : List LongRun) : Option TraceFig :=
  let run_laps := frameRows (get_long_run_laps laps long_runs)
  if run_laps.isEmpty then none else some ⟨run_laps⟩

/-- The data behind the figure of `plot_consistency_rankings`. -/
structure ConsistencyFig where
  rows : List ConsistencyRow
deriving DecidableEq

/-- `plot_consistency_rankings` (long_runs.py), reduced to the data it
draws: `None` when the consistency table is empty. -/
def plot_consistency_rankings (long_runs : List LongRun) : Option ConsistencyFig :=
  let consistency := compute_consistency_by_team long_runs
  if consistency.isEmpty then none else some ⟨consistency⟩

/-- The data behind the figure of `plot_long_runs_by_compound`: one axis per
compound present in the selection, plus the selected rows. -/
structure CompoundTraceFig where
  compounds : List String
  rows : List RunLapRow
deriving DecidableEq

/-- `plot_long_runs_by_compound` (long_runs.py), reduced to the data it
draws: `None` when the long-run lap selection is empty, and again `None`
when no non-null compound appears in the selection. -/
def plot_long_runs_by_compound (laps : List Lap) (long_runs : List LongRun) :
    Option CompoundTraceFig :=
  let run_laps := frameRows (get_long_run_laps laps long_runs)
  if run_laps.isEmpty then none
  else
    let compounds := ((run_laps.filterMap (fun x => x.lap.Compound)).dedup).mergeSort strLE
    if compounds.isEmpty then none else some ⟨compounds, run_laps⟩

/-! ## Concrete tables used by witnesses and counterexamples -/

/-- A single valid lap: team A, driver X, day 1, stint 1, 90 s on softs. -/
def exLapValid : Lap :=
  { Team := "A", Driver := "X", Day := 1, Stint := 1, LapNumber := 1,
    Compound := some "SOFT", LapTimeSeconds := some 90 }

/-- A lap with a non-positive (hence invalid) lap time. -/
def exLapNonPos : Lap :=
  { Team := "A", Driver := "X", Day := 1, Stint := 1, LapNumber := 1,
    Compound := some "SOFT", LapTimeSeconds := some (-1) }

/-- A lap of team B with a null lap time (and null compound). -/
def exLapNull : Lap :=
  { Team := "B", Driver := "Y", Day := 1, Stint := 1, LapNumber := 1,
    Compound := none, LapTimeSeconds := none }

/-- The long-run row `identify_long_runs` produces for the one-lap table
`[exLapValid]` at threshold 1. -/
def exSingleRun : LongRun :=
  { Team := "A", Driver := "X", Day := 1, Stint := 1, StintLaps := 1,
    Compound := some "SOFT", MeanTime := 90, StdTime := none,
    MinTime := 90, MaxTime := 90, CoV := none, Range := 0 }

/-- The `compute_team_stats` row for the one-lap table `[exLapValid]`. -/
def exStatsRow : TeamStats :=
  { Team := "A", min := some 90, median := some 90, mean := some 90,
    std := none, count := 1, headline_gap := some 0 }

/-! ## Helper lemmas -/

theorem optLE_trans (a b c : Option ℚ) (hab : optLE a b = true)
    (hbc : optLE b c = true) : optLE a c = true := by
  cases a <;> cases b <;> cases c <;> simp_all [optLE]
  exact le_trans hab hbc

theorem optLE_total (a b : Option ℚ) : (optLE a b || optLE b a) = true := by
  cases a <;> cases b <;> simp [optLE]
  exact le_total _ _

theorem lapNumLE_trans (a b c : Lap) (hab : lapNumLE a b = true)
    (hbc : lapNumLE b c = true) : lapNumLE a c = true := by
  simp_all [lapNumLE]
  omega

theorem lapNumLE_total (a b : Lap) : (lapNumLE a b || lapNumLE b a) = true := by
  simp [lapNumLE]
  omega

theorem numberFrom_map_num (i : Nat) (m : ℚ) (ls : List Lap) :
    (numberFrom i m ls).map (·.StintLapNumber) = List.range' i ls.length := by
  induction ls generalizing i with
  | nil => simp [numberFrom]
  | cons l ls ih => simp [numberFrom, List.range', ih]

theorem numberFrom_map_lap (i : Nat) (m : ℚ) (ls : List Lap) :
    (numberFrom i m ls).map (·.lap) = ls := by
  induction ls generalizing i with
  | nil => simp [numberFrom]
  | cons l ls ih => simp [numberFrom, ih]

theorem numberFrom_map_delta (i : Nat) (m : ℚ) (ls : List Lap) :
    (numberFrom i m ls).map (·.DeltaFromMean)
      = ls.map (fun l => l.LapTimeSeconds.getD 0 - m) := by
  induction ls generalizing i with
  | nil => simp [numberFrom]
  | cons l ls ih => simp [numberFrom, ih]

theorem numberFrom_length (i : Nat) (m : ℚ) (ls : List Lap) :
    (numberFrom i m ls).length = ls.length := by
  induction ls generalizing i with
  | nil => simp [numberFrom]
  | cons l ls ih => simp [numberFrom, ih]

theorem sum_map_sub_const (l : List ℚ) (m : ℚ) :
    (l.map (fun x => x - m)).sum = l.sum - (l.length : ℚ) * m := by
  induction l with
  | nil => simp
  | cons x xs ih => simp [ih]; ring

theorem sum_map_sub_meanD (xs : List ℚ) :
    (xs.map (fun x => x - meanD xs)).sum = 0 := by
  rcases xs with _ | ⟨y, ys⟩
  · simp
  · rw [sum_map_sub_const, meanD]
    have hn : (0 : ℚ) < ((y :: ys).length : ℚ) := by
      exact_mod_cast Nat.succ_pos ys.length
    field_simp

/-! ## Claims -/

/-- C8: for every lap table, `identify_long_runs(laps, min_laps=0)` returns
the same result as `identify_long_runs(laps)` with the default configured
threshold: the override `min_laps or LONG_RUN_MIN_LAPS` is taken only when
truthy, so an explicit `min_laps` of `0` is ignored and the module-level
constant is used instead. -/
theorem claim_C8 (cfg : Nat) (f : ℚ → ℚ) (laps : List Lap) :
    identify_long_runs cfg f laps (some 0) = identify_long_runs cfg f laps none := rfl

/-- C9: for every long-run table, the rows of `compute_consistency_by_team`
are sorted ascending by `MedianCoV` (undefined medians last), so the team
with the smallest median CoV comes first. -/
theorem claim_C9 (long_runs : List LongRun) :
    (compute_consistency_by_team long_runs).Pairwise
      (fun a b => optLE a.MedianCoV b.MedianCoV = true) := by
  unfold compute_consistency_by_team
  exact @List.sorted_mergeSort ConsistencyRow
    (fun a b => optLE a.MedianCoV b.MedianCoV)
    (fun a b c hab hbc => optLE_trans _ _ _ hab hbc)
    (fun a b => optLE_total _ _) _

/-- C6: for every stint block produced by `get_long_run_laps`, the sum of
`DeltaFromMean` over the block's laps is exactly 0: the lap times are
centered on the mean computed over the same selected laps. -/
theorem claim_C6 (laps : List Lap) (r : LongRun) :
    ((runLapsFor laps r).map (·.DeltaFromMean)).sum = 0 := by
  have h : ∀ S : List Lap,
      ((numberFrom 1 (meanD (S.map (fun l => l.LapTimeSeconds.getD 0))) S).map
        (·.DeltaFromMean)).sum = 0 := by
    intro S
    rw [numberFrom_map_delta]
    have h2 := sum_map_sub_meanD (S.map (fun l => l.LapTimeSeconds.getD 0))
    rw [List.map_map] at h2
    simpa [Function.comp] using h2
  simpa [runLapsFor] using h ((runSelect laps r).mergeSort lapNumLE)

/-- C5: `get_long_run_laps` with an empty long-run table returns the bare
schema-less empty frame; for a non-empty long-run table the result is the
concatenation of the per-stint blocks, and within each block the selected
laps are sorted by `LapNumber` with `StintLapNumber` the contiguous
integers 1, 2, ... in that order. -/
theorem claim_C5 (laps : List Lap) (lrs : List LongRun) (r : LongRun) :
    get_long_run_laps laps [] = RunLapsFrame.emptyNoCols
    ∧ get_long_run_laps laps (r :: lrs)
        = RunLapsFrame.table (((r :: lrs).map (runLapsFor laps)).flatten)
    ∧ ((runLapsFor laps r).map (fun x => x.lap.LapNumber)).Pairwise (fun a b => a ≤ b)
    ∧ (runLapsFor laps r).map (·.StintLapNumber)
        = List.range' 1 ((runLapsFor laps r).length) := by
  refine ⟨rfl, rfl, ?_, ?_⟩
  · have hs := List.sorted_mergeSort lapNumLE_trans lapNumLE_total (runSelect laps r)
    simp only [runLapsFor]
    rw [show (fun x : RunLapRow => x.lap.LapNumber)
          = ((fun l : Lap => l.LapNumber) ∘ (fun x : RunLapRow => x.lap)) from rfl,
        ← List.map_map, numberFrom_map_lap, List.pairwise_map]
    exact hs.imp (fun h => by simpa [lapNumLE] using h)
  · simp only [runLapsFor]
    rw [numberFrom_map_num, numberFrom_length]

/-- C7: every long-run row whose group has a single valid lap (as arises
when the effective threshold is 1) carries an undefined (`NaN`) standard
deviation, and `CoV` is then also `NaN` rather than 0: the undefined value
propagates through the division `StdTime / MeanTime`. -/
theorem claim_C7 (cfg : Nat) (f : ℚ → ℚ) (laps : List Lap) (ml : Option Nat)
    (r : LongRun) (hr : r ∈ identify_long_runs cfg f laps ml)
    (h1 : r.StintLaps = 1) : r.StdTime = none ∧ r.CoV = none := by
  simp only [identify_long_runs, List.mem_map, List.mem_filter] at hr
  obtain ⟨s, ⟨hs, hthr⟩, rfl⟩ := hr
  obtain ⟨k, hk, rfl⟩ := hs
  have hstd : (makeStintRow f (validLaps laps) k).StdTime = none := by
    simp only [longRunOfStint, makeStintRow] at h1 ⊢
    simp [stdO, h1]
  exact ⟨hstd, by simp [longRunOfStint, hstd]⟩

unseal Nat.gcd Rat.add Rat.mul Rat.inv Rat.sub Rat.ofScientific String.ltb List.merge List.mergeSort in
theorem claim_C7_witness :
    exSingleRun ∈ identify_long_runs 5 (fun q => q) [exLapValid] (some 1)
    ∧ exSingleRun.StintLaps = 1
    ∧ (exSingleRun.StdTime = none ∧ exSingleRun.CoV = none) :=
  ⟨by decide, by decide,
    claim_C7 5 (fun q => q) [exLapValid] (some 1) exSingleRun (by decide) (by decide)⟩

/-- C4: each renderer whose aggregated input is empty returns an absent
result (`None`): `plot_long_run_traces` and `plot_long_runs_by_compound`
when the long-run lap selection is empty (in particular when the long-run
table itself is empty), `plot_consistency_rankings` when the consistency
table is empty, and `plot_compound_distributions` when no compound is
present; the embedded renderers are total functions, so no exception is
raised. -/
theorem claim_C4 (laps laps2 : List Lap) (lrs lrs2 : List LongRun)
    (h1 : frameRows (get_long_run_laps laps lrs) = [])
    (h2 : compute_consistency_by_team lrs2 = [])
    (h3 : laps2.filterMap (·.Compound) = []) :
    plot_long_run_traces laps lrs = none
    ∧ plot_long_runs_by_compound laps lrs = none
    ∧ plot_consistency_rankings lrs2 = none
    ∧ plot_compound_distributions laps2 = none
    ∧ plot_long_run_traces laps [] = none := by
  refine ⟨?_, ?_, ?_, ?_, ?_⟩
  · simp [plot_long_run_traces, h1]
  · simp [plot_long_runs_by_compound, h1]
  · simp [plot_consistency_rankings, h2]
  · have hnone : ∀ l ∈ laps2, l.Compound = none := List.filterMap_eq_nil_iff.mp h3
    have hmem : ∀ c : String, some c ∉ (laps2.map (·.Compound)).dedup := by
      intro c hc
      rw [List.mem_dedup, List.mem_map] at hc
      obtain ⟨l, hl, hlc⟩ := hc
      rw [hnone l hl] at hlc
      exact Option.noConfusion hlc
    have hcs0 : compound_order.filter
        (fun c => decide (some c ∈ (laps2.map (·.Compound)).dedup)) = [] := by
      apply List.filter_eq_nil_iff.mpr
      intro c _
      simpa using hmem c
    simp only [plot_compound_distributions]
    rw [hcs0, h3]
    simp
  · simp [plot_long_run_traces, get_long_run_laps, frameRows]

unseal Nat.gcd Rat.add Rat.mul Rat.inv Rat.sub Rat.ofScientific String.ltb List.merge List.mergeSort in
theorem claim_C4_witness :
    (frameRows (get_long_run_laps ([] : List Lap) ([] : List LongRun)) = []
      ∧ compute_consistency_by_team ([] : List LongRun) = []
      ∧ ([] : List Lap).filterMap (·.Compound) = [])
    ∧ (plot_long_run_traces [] [] = none
      ∧ plot_long_runs_by_compound [] [] = none
      ∧ plot_consistency_rankings [] = none
      ∧ plot_compound_distributions [] = none
      ∧ plot_long_run_traces [] [] = none) :=
  ⟨⟨by decide, by decide, by decide⟩,
    claim_C4 [] [] [] [] (by decide) (by decide) (by decide)⟩

/-- An association list built by tabulating `f` over a key list: looking up
`x` finds `f x` exactly when `x` is one of the keys. -/
theorem lookup_map_self {α β : Type} [BEq α] [LawfulBEq α] (f : α → β)
    (ks : List α) (x : α) :
    ((ks.map (fun k => (k, f k))).lookup x) = if x ∈ ks then some (f x) else none := by
  induction ks with
  | nil => simp
  | cons k ks ih =>
    simp only [List.map_cons, List.lookup]
    by_cases h : x = k
    · subst h
      simp
    · have hbeq : (x == k) = false := beq_eq_false_iff_ne.mpr h
      rw [hbeq]
      simp [ih, h]

/-- C10: the pivot returned by `compute_laps_per_team_day` is a full
Team × Day grid — one row of cells per team, one cell per day in every row —
and each cell holds the number of laps of that (team, day) pair, a
non-negative integer that is 0 exactly when the pair is missing from the
data (the `fillna(0)` value). -/
theorem claim_C10 (laps : List Lap) (t : String) (d : Int) :
    (compute_laps_per_team_day laps).cells.length
      = (compute_laps_per_team_day laps).index.length
    ∧ (∀ row ∈ (compute_laps_per_team_day laps).cells,
        row.length = (compute_laps_per_team_day laps).cols.length)
    ∧ pivotCell laps t d
        = (laps.filter (fun l => decide ((l.Team, l.Day) = (t, d)))).length := by
  refine ⟨by simp [compute_laps_per_team_day], ?_, ?_⟩
  · intro row hrow
    simp only [compute_laps_per_team_day, List.mem_map] at hrow
    obtain ⟨t2, _, rfl⟩ := hrow
    simp [compute_laps_per_team_day]
  · unfold pivotCell team_day_sizes
    rw [lookup_map_self]
    by_cases h : (t, d) ∈ team_day_pairs laps
    · simp [h]
    · rw [if_neg h]
      symm
      simp only [Option.getD_none, List.length_eq_zero]
      apply List.filter_eq_nil_iff.mpr
      intro l hl
      simp only [decide_eq_true_eq]
      intro heq
      apply h
      simp only [team_day_pairs, List.mem_mergeSort, List.mem_dedup, List.mem_map]
      exact ⟨l, hl, heq⟩

theorem validLaps_idem (laps : List Lap) : validLaps (validLaps laps) = validLaps laps := by
  have h1 : dropnaLapTime (validLaps laps) = validLaps laps := by
    apply List.filter_eq_self.mpr
    intro l hl
    have h2 := (List.mem_filter.mp hl).1
    exact (List.mem_filter.mp h2).2
  show (dropnaLapTime (validLaps laps)).filter (fun l => optPos l.LapTimeSeconds)
      = validLaps laps
  rw [h1]
  apply List.filter_eq_self.mpr
  intro l hl
  exact (List.mem_filter.mp hl).2

theorem beq_eq_decideEq {α : Type} [BEq α] [LawfulBEq α] [DecidableEq α] (a b : α) :
    (a == b) = decide (a = b) := by
  by_cases h : a = b <;> simp [h]

theorem totalRow_count (laps : List Lap) (t : String) :
    (totalRow laps t).TotalLaps = (laps.map (·.Team)).count t := by
  simp only [totalRow]
  rw [show (fun l : Lap => decide (l.Team = t)) = (fun l : Lap => l.Team == t) from
    funext (fun l => (beq_eq_decideEq l.Team t).symm)]
  rw [← List.countP_eq_length_filter, List.count_eq_countP, List.countP_map]
  rfl

/-- C1 (corrected): of the aggregations over `LapTimeSeconds`, only
`identify_long_runs` restricts its rows to non-null, strictly positive lap
times before aggregating — its result is unchanged when invalid laps are
removed first.  `compute_team_stats` aggregates each team's non-null lap
times (each pandas statistic skips nulls) but applies no `> 0` filter, and
the reliability lap counts (`compute_total_laps`) count every row of the
table, null lap times included: the sum of the per-team totals is the whole
table's row count. -/
theorem claim_C1 (cfg : Nat) (f : ℚ → ℚ) (laps : List Lap) (ml : Option Nat)
    (r : TeamStats) (hr : r ∈ compute_team_stats f laps) :
    identify_long_runs cfg f (validLaps laps) ml = identify_long_runs cfg f laps ml
    ∧ (r.min = foldMin (nonNullTimes laps r.Team)
       ∧ r.median = medianQ (nonNullTimes laps r.Team)
       ∧ r.count = (nonNullTimes laps r.Team).length)
    ∧ ((compute_total_laps laps).map (·.TotalLaps)).sum = laps.length := by
  refine ⟨?_, ?_, ?_⟩
  · unfold identify_long_runs
    rw [validLaps_idem]
  · simp only [compute_team_stats, List.mem_mergeSort, List.mem_map] at hr
    obtain ⟨t, ht, rfl⟩ := hr
    exact ⟨rfl, rfl, rfl⟩
  · have hp1 : ((compute_total_laps laps).map (·.TotalLaps)).Perm
        (((sortedTeams laps).map (totalRow laps)).map (·.TotalLaps)) := by
      unfold compute_total_laps
      exact (List.mergeSort_perm _ _).map _
    rw [hp1.sum_eq]
    have hp2 : (((sortedTeams laps).map (totalRow laps)).map (·.TotalLaps)).Perm
        ((((laps.map (·.Team)).dedup).map (totalRow laps)).map (·.TotalLaps)) := by
      unfold sortedTeams
      exact ((List.mergeSort_perm _ _).map _).map _
    rw [hp2.sum_eq]
    have h4 : ((((laps.map (·.Team)).dedup).map (totalRow laps)).map (·.TotalLaps))
        = ((laps.map (·.Team)).dedup).map (fun t => (laps.map (·.Team)).count t) := by
      rw [List.map_map]
      apply List.map_congr_left
      intro t _
      exact totalRow_count laps t
    rw [h4]
    have h5 := List.sum_map_count_dedup_eq_length (laps.map (·.Team))
    rw [h5]
    exact List.length_map laps _

unseal Nat.gcd Rat.add Rat.mul Rat.inv Rat.sub Rat.ofScientific String.ltb List.merge List.mergeSort in
theorem claim_C1_witness :
    exStatsRow ∈ compute_team_stats (fun q => q) [exLapValid]
    ∧ exStatsRow.count = (nonNullTimes [exLapValid] exStatsRow.Team).length :=
  ⟨by decide,
    (claim_C1 1 (fun q => q) [exLapValid] none exStatsRow (by decide)).2.1.2.2⟩

/- C1 counterexample: the claim as stated is false.  `compute_team_stats`
aggregates a strictly negative lap time (its result on a table holding only
an invalid lap differs from its result on the validity-filtered table), and
`compute_total_laps` counts a row whose lap time is null. -/
unseal Nat.gcd Rat.add Rat.mul Rat.inv Rat.sub Rat.ofScientific String.ltb List.merge List.mergeSort in
theorem claim_C1_counterexample :
    compute_team_stats (fun q => q) [exLapNonPos]
      ≠ compute_team_stats (fun q => q) (validLaps [exLapNonPos])
    ∧ compute_total_laps [exLapNull] ≠ compute_total_laps (validLaps [exLapNull]) :=
  ⟨by decide, by decide⟩

/-- C2 (corrected): `compute_team_stats` returns exactly one row per
distinct team appearing in the input — whether or not the team has any
valid lap — sorted ascending by the median of the team's non-null lap
times, with undefined medians placed last.  A team all of whose lap times
are invalid still appears (with `none` statistics, or statistics of its
non-positive times). -/
theorem claim_C2 (f : ℚ → ℚ) (laps : List Lap) :
    (∀ t, (∃ r ∈ compute_team_stats f laps, r.Team = t) ↔ t ∈ laps.map (·.Team))
    ∧ ((compute_team_stats f laps).map (·.Team)).Nodup
    ∧ (compute_team_stats f laps).Pairwise
        (fun a b => optLE a.median b.median = true) := by
  refine ⟨?_, ?_, ?_⟩
  · intro t
    simp only [compute_team_stats, List.mem_mergeSort, List.mem_map, sortedTeams,
      List.mem_dedup]
    constructor
    · rintro ⟨r, ⟨t2, ht2, rfl⟩, rfl⟩
      exact ht2
    · intro ht
      exact ⟨teamStatsRow f laps t, ⟨t, ht, rfl⟩, rfl⟩
  · have h1 : (((sortedTeams laps).map (teamStatsRow f laps)).map (·.Team))
        = sortedTeams laps := by
      rw [List.map_map]
      conv_rhs => rw [← List.map_id (sortedTeams laps)]
      apply List.map_congr_left
      intro t _
      rfl
    have h2 : (sortedTeams laps).Nodup := by
      unfold sortedTeams
      exact (List.mergeSort_perm _ _).symm.nodup (List.nodup_dedup _)
    have hperm : ((compute_team_stats f laps).map (·.Team)).Perm (sortedTeams laps) := by
      unfold compute_team_stats
      have := (List.mergeSort_perm ((sortedTeams laps).map (teamStatsRow f laps))
        (fun a b => optLE a.median b.median)).map (fun x : TeamStats => x.Team)
      rwa [h1] at this
    exact hperm.symm.nodup h2
  · unfold compute_team_stats
    exact @List.sorted_mergeSort TeamStats
      (fun a b => optLE a.median b.median)
      (fun a b c hab hbc => optLE_trans _ _ _ hab hbc)
      (fun a b => optLE_total _ _) _

/- C2 counterexample: the claim as stated is false.  In a table where team
B's only lap time is null, team B has zero valid laps yet still appears in
the output of `compute_team_stats`. -/
unseal Nat.gcd Rat.add Rat.mul Rat.inv Rat.sub Rat.ofScientific String.ltb List.merge List.mergeSort in
theorem claim_C2_counterexample :
    "B" ∈ ((compute_team_stats (fun q => q) [exLapValid, exLapNull]).map (·.Team))
    ∧ (validLaps [exLapValid, exLapNull]).map (·.Team) = ["A"] :=
  ⟨by decide, by decide⟩

/-- C3 (corrected): for every truthy threshold `N ≥ 1` passed as
`min_laps`, `identify_long_runs` first drops null and non-positive lap
times, groups the remaining laps by (Team, Driver, Day, Stint), and returns
exactly the groups whose valid-lap count `StintLaps` is `≥ N` — every
returned stint has `StintLaps ≥ N`, every valid group with enough laps
appears, and no group appears twice — with `Compound` the group's first
(non-null) value, `CoV = StdTime / MeanTime` and `Range = MaxTime -
MinTime`.  (For `N = 0` the passed threshold is ignored in favour of the
configured default, so the `N = 0` instance of the original claim fails;
see the counterexample.) -/
theorem claim_C3 (cfg : Nat) (f : ℚ → ℚ) (laps : List Lap) (N : Nat) (hN : 1 ≤ N) :
    (∀ r ∈ identify_long_runs cfg f laps (some N),
       N ≤ r.StintLaps
       ∧ r.StintLaps = ((stintGroup (validLaps laps) (rowKey r)).filterMap
           (·.LapTimeSeconds)).length
       ∧ r.Compound = ((stintGroup (validLaps laps) (rowKey r)).filterMap
           (·.Compound)).head?
       ∧ r.CoV = r.StdTime.map (fun sd => sd / r.MeanTime)
       ∧ r.Range = r.MaxTime - r.MinTime)
    ∧ (∀ k ∈ (validLaps laps).map stintKey,
        N ≤ ((stintGroup (validLaps laps) k).filterMap (·.LapTimeSeconds)).length
        → ∃ r ∈ identify_long_runs cfg f laps (some N), rowKey r = k)
    ∧ ((identify_long_runs cfg f laps (some N)).map rowKey).Nodup := by
  have hTh : orDefault (some N) cfg = N := by
    simp only [orDefault]
    rw [if_neg (by omega)]
  refine ⟨?_, ?_, ?_⟩
  · intro r hr
    simp only [identify_long_runs, List.mem_map, List.mem_filter] at hr
    obtain ⟨s, ⟨hs, hthr⟩, rfl⟩ := hr
    obtain ⟨k, hk, rfl⟩ := hs
    rw [hTh] at hthr
    exact ⟨by simpa using hthr, rfl, rfl, rfl, rfl⟩
  · intro k hk hcount
    refine ⟨longRunOfStint (makeStintRow f (validLaps laps) k), ?_, rfl⟩
    simp only [identify_long_runs, List.mem_map, List.mem_filter]
    refine ⟨makeStintRow f (validLaps laps) k, ⟨⟨k, ?_, rfl⟩, ?_⟩, rfl⟩
    · simp only [stintKeys, List.mem_mergeSort, List.mem_dedup]
      exact hk
    · rw [hTh]
      simp only [makeStintRow, decide_eq_true_eq]
      exact hcount
  · have h1 : ∀ ks : List (String × String × Int × Int),
        ks.map ((fun s => rowKey (longRunOfStint s)) ∘ makeStintRow f (validLaps laps))
          = ks := by
      intro ks
      induction ks with
      | nil => rfl
      | cons a as ih =>
        rw [List.map_cons, ih]
        rfl
    have h2 := (List.filter_sublist
        (p := fun s => decide (orDefault (some N) cfg ≤ s.StintLaps))
        ((stintKeys (validLaps laps)).map (makeStintRow f (validLaps laps)))).map
        (fun s => rowKey (longRunOfStint s))
    rw [List.map_map, h1] at h2
    have hnd : (stintKeys (validLaps laps)).Nodup := by
      unfold stintKeys
      exact (List.mergeSort_perm _ _).symm.nodup (List.nodup_dedup _)
    have h3 : ((identify_long_runs cfg f laps (some N)).map rowKey).Sublist
        (stintKeys (validLaps laps)) := by
      simpa only [identify_long_runs, List.map_map] using h2
    exact h3.nodup hnd

unseal Nat.gcd Rat.add Rat.mul Rat.inv Rat.sub Rat.ofScientific String.ltb List.merge List.mergeSort in
theorem claim_C3_witness :
    (1 : Nat) ≤ 1
    ∧ (∃ r ∈ identify_long_runs 5 (fun q => q) [exLapValid] (some 1),
        rowKey r = stintKey exLapValid) :=
  ⟨by decide,
    (claim_C3 5 (fun q => q) [exLapValid] 1 (by decide)).2.1
      (stintKey exLapValid) (by decide) (by decide)⟩

/- C3 counterexample: the claim as stated quantifies over every threshold
`N` passed as `min_laps`, but `min_laps=0` is untruthy and falls back to
the configured default (here 2), so a group with 1 ≥ 0 valid laps is
missing from the output: the output is empty even though a valid group
exists. -/
unseal Nat.gcd Rat.add Rat.mul Rat.inv Rat.sub Rat.ofScientific String.ltb List.merge List.mergeSort in
theorem claim_C3_counterexample :
    identify_long_runs 2 (fun q => q) [exLapValid] (some 0) = []
    ∧ validLaps [exLapValid] = [exLapValid] :=
  ⟨by decide, by decide⟩
